import Mathlib

/-!
Verification of the `evm_rpc` JSON-RPC gateway against its specification.

Shallow embedding of the Go sources: pure functions become Lean functions,
state (token buckets, the subscription registry, the transaction pool) is
passed explicitly, machine integers are `Nat`/`Int` with explicit two's
complement conversion where Go casts between `uint64` and `int64`, fallible
code returns `Except`/`Option`.  The KV store is modelled as a total map
`String → Option value` where `none` is the store's distinguished
not-found answer.
-/

set_option maxRecDepth 4000

/-- A JSON-RPC error value (`pkg/api/types.go`, `RPCError`): numeric code and
message.  The optional `data` field is never set on the paths modelled here. -/
structure RPCErr where
  code : Int
  message : String
deriving DecidableEq, Repr

/-- Go's conversion `int64(u)` of a `uint64` value: two's complement wrap. -/
def int64OfUint64 (n : Nat) : Int :=
  if n < 2 ^ 63 then (n : Int) else (n : Int) - 2 ^ 64

instance {ε α : Type} [DecidableEq ε] [DecidableEq α] :
    DecidableEq (Except ε α) := fun a b =>
  match a, b with
  | Except.ok x, Except.ok y =>
      if h : x = y then isTrue (by rw [h])
      else isFalse (by intro hc; cases hc; exact h rfl)
  | Except.error x, Except.error y =>
      if h : x = y then isTrue (by rw [h])
      else isFalse (by intro hc; cases hc; exact h rfl)
  | Except.ok _, Except.error _ => isFalse (by intro hc; cases hc)
  | Except.error _, Except.ok _ => isFalse (by intro hc; cases hc)

/-- Lookup in an association list modelling a Go map (`m[k]`). -/
def mapLookup {α : Type} (m : List (String × α)) (k : String) : Option α :=
  match m with
  | [] => none
  | (k', v) :: rest => if k' = k then some v else mapLookup rest k

/-- Go map assignment `m[k] = v`: replace the binding when the key is present,
append it otherwise. -/
def mapInsert {α : Type} (m : List (String × α)) (k : String) (v : α) :
    List (String × α) :=
  match m with
  | [] => [(k, v)]
  | (k', v') :: rest =>
      if k' = k then (k', v) :: rest else (k', v') :: mapInsert rest k v

theorem mapLookup_mapInsert_self {α : Type} (m : List (String × α)) (k : String)
    (v : α) : mapLookup (mapInsert m k v) k = some v := by
  induction m with
  | nil => simp [mapInsert, mapLookup]
  | cons hd tl ih =>
      obtain ⟨k', v'⟩ := hd
      by_cases h : k' = k
      · simp [mapInsert, mapLookup, h]
      · simp [mapInsert, mapLookup, h, ih]

/-! ## Log filter matching (`matchLogFilter`, subscription manager) -/

/-- An Ethereum log as used by `matchLogFilter`: emitting address and the
positional topic list.  Addresses and 32-byte topics are abstracted to `Nat`
(only equality is used by the code). -/
structure GoLog where
  address : Nat
  topics : List Nat
deriving DecidableEq, Repr

/-- `FilterCriteria`: address allow-list and per-position topic disjunctions. -/
structure GoFilterCriteria where
  addresses : List Nat
  topics : List (List Nat)
deriving DecidableEq, Repr

/-- The topic loop of `matchLogFilter`: walk the filter's topic sets in
position order; a position beyond the log's topics returns `false` before the
wildcard (empty set) test; an empty set is a wildcard; otherwise the log's
topic at that position must lie in the set. -/
def matchTopics : List (List Nat) → List Nat → Bool
  | [], _ => true
  | _ :: _, [] => false
  | ts :: rest, t :: lrest =>
      if ts = [] then matchTopics rest lrest
      else if ts.contains t then matchTopics rest lrest
      else false

/-- `matchLogFilter` from the subscription manager: the address must be in the
allow-list (when non-empty) and every topic position must match. -/
def matchLogFilter (log : GoLog) (filter : GoFilterCriteria) : Bool :=
  (filter.addresses = [] || filter.addresses.contains log.address) &&
    matchTopics filter.topics log.topics

/-- The matching condition exactly as the claim words it: the address
condition, and for every position of the filter either the set is empty
(wildcard) or the log has a topic at that position lying in the set.
Written from the claim's words, to be compared with `matchLogFilter`. -/
def claimLogMatchCondition (log : GoLog) (filter : GoFilterCriteria) : Prop :=
  (filter.addresses = [] ∨ log.address ∈ filter.addresses) ∧
    ∀ i, ∀ hf : i < filter.topics.length,
      filter.topics.get ⟨i, hf⟩ = [] ∨
        ∃ h : i < log.topics.length,
          log.topics.get ⟨i, h⟩ ∈ filter.topics.get ⟨i, hf⟩

instance (log : GoLog) (filter : GoFilterCriteria) :
    Decidable (claimLogMatchCondition log filter) := by
  unfold claimLogMatchCondition
  exact instDecidableAnd

/-! ## Subscription ids and the registry (`generateSubscriptionID`,
`SubscriptionManager.Subscribe`) -/

/-- Two lowercase hex digits for one byte, as Go's `%x` formats `[]byte`. -/
def byteToHex (b : Nat) : String :=
  let digit := fun n : Nat =>
    if n < 10 then Char.ofNat (48 + n) else Char.ofNat (87 + n)
  String.mk [digit (b / 16 % 16), digit (b % 16)]

/-- `common.BigToHash(n).Bytes()`: the 32-byte big-endian representation of
`n` modulo `2^256`, most significant byte first. -/
def bigToHashBytes (n : Nat) : List Nat :=
  (List.range 32).map (fun i => n / 256 ^ (31 - i) % 256)

/-- `generateSubscriptionID`: the Go source formats the first 16 bytes of
`common.BigToHash(common.Big1).Bytes()` with `"0x%x"`.  No randomness is
involved despite the comment in the source. -/
def generateSubscriptionID : String :=
  "0x" ++ ((bigToHashBytes 1).take 16).foldl (fun acc b => acc ++ byteToHex b) ""

/-- A subscription record as stored in the registry (connection owner,
subscription type tag, optional log filter).  Connections are abstracted to
`Nat` identities, types to `String` tags, as the registry only stores them. -/
structure SubRec where
  id : String
  subType : String
  filter : Option GoFilterCriteria
  conn : Nat
deriving DecidableEq, Repr

/-- The mutable state of `SubscriptionManager` that `Subscribe` touches:
the id-keyed registry and the per-connection map. -/
structure SubState where
  subscriptions : List (String × SubRec)
  connections : List (Nat × List (String × SubRec))
deriving DecidableEq, Repr

/-- Lookup in the connection-keyed map (Go `sm.connections[conn]`). -/
def connLookup (m : List (Nat × List (String × SubRec))) (c : Nat) :
    Option (List (String × SubRec)) :=
  match m with
  | [] => none
  | (c', v) :: rest => if c' = c then some v else connLookup rest c

/-- Assignment in the connection-keyed map (Go `sm.connections[conn] = v`). -/
def connInsert (m : List (Nat × List (String × SubRec))) (c : Nat)
    (v : List (String × SubRec)) : List (Nat × List (String × SubRec)) :=
  match m with
  | [] => [(c, v)]
  | (c', v') :: rest =>
      if c' = c then (c', v) :: rest else (c', v') :: connInsert rest c v

/-- `SubscriptionManager.Subscribe`: generate an id, build the record, store
it in the id-keyed registry and under the owning connection, return the id. -/
def subscribe (st : SubState) (conn : Nat) (subType : String)
    (filter : Option GoFilterCriteria) : String × SubState :=
  let subID := generateSubscriptionID
  let sub : SubRec := ⟨subID, subType, filter, conn⟩
  let subs := mapInsert st.subscriptions subID sub
  let connSubs := (connLookup st.connections conn).getD []
  let conns := connInsert st.connections conn (mapInsert connSubs subID sub)
  (subID, ⟨subs, conns⟩)

/-! ## Block-tag parsing and resolution (`pkg/api/types.go`,
`BlockAPI.resolveBlockNumber`, `StateAPI.resolveBlockNumber`) -/

/-- The six characters Go's `strings.TrimSpace` strips in the ASCII range
(the inputs of interest are ASCII). -/
def isGoSpace (c : Char) : Bool :=
  c = ' ' || c = '\t' || c = '\n' || c = '\x0b' || c = '\x0c' || c = '\r'

/-- `strings.TrimSpace`: drop leading and trailing whitespace. -/
def goTrimSpace (s : String) : String :=
  String.mk (((s.data.dropWhile isGoSpace).reverse.dropWhile isGoSpace).reverse)

/-- `strings.ToLower` on one character (ASCII range). -/
def goToLowerChar (c : Char) : Char :=
  if 65 ≤ c.toNat ∧ c.toNat ≤ 90 then Char.ofNat (c.toNat + 32) else c

/-- `strings.ToLower` (ASCII range). -/
def goToLower (s : String) : String :=
  String.mk (s.data.map goToLowerChar)

/-- Value of one hex digit, `none` for non-digits. -/
def hexDigitVal (c : Char) : Option Nat :=
  if 48 ≤ c.toNat ∧ c.toNat ≤ 57 then some (c.toNat - 48)
  else if 97 ≤ c.toNat ∧ c.toNat ≤ 102 then some (c.toNat - 87)
  else if 65 ≤ c.toNat ∧ c.toNat ≤ 70 then some (c.toNat - 55)
  else none

/-- Accumulating base-16 parse of a digit list. -/
def parseHexAux (acc : Nat) : List Char → Option Nat
  | [] => some acc
  | c :: rest =>
      match hexDigitVal c with
      | none => none
      | some d => parseHexAux (acc * 16 + d) rest

/-- Go `strconv.ParseUint(s, 16, 64)` over the character list: fails on the
empty string, on any non-hex character, and on values not fitting in 64
bits. -/
def parseHex16_64 (cs : List Char) : Option Nat :=
  if cs = [] then none
  else
    match parseHexAux 0 cs with
    | none => none
    | some n => if n < 2 ^ 64 then some n else none

/-- Go `strings.HasPrefix(s, "0x")` plus the byte slice `s[2:]` (the inputs
are ASCII, so bytes are characters): the characters after the `0x` prefix,
or `none` when the prefix is absent. -/
def hexTail (cs : List Char) : Option (List Char) :=
  match cs with
  | c1 :: c2 :: rest => if c1 = '0' ∧ c2 = 'x' then some rest else none
  | _ => none

/-- Value of one decimal digit, `none` for non-digits. -/
def decDigitVal (c : Char) : Option Nat :=
  if 48 ≤ c.toNat ∧ c.toNat ≤ 57 then some (c.toNat - 48) else none

/-- Accumulating base-10 parse of a digit list. -/
def parseDecAux (acc : Nat) : List Char → Option Nat
  | [] => some acc
  | c :: rest =>
      match decDigitVal c with
      | none => none
      | some d => parseDecAux (acc * 10 + d) rest

/-- Go `strconv.ParseUint(s, 10, 64)`. -/
def parseUint10_64 (s : String) : Option Nat :=
  if s.data = [] then none
  else
    match parseDecAux 0 s.data with
    | none => none
    | some n => if n < 2 ^ 64 then some n else none

/-- `api.ParseBlockNumber`:  trim whitespace, lowercase, match the three
literals (latest = -1, earliest = 0, pending = -2 as the `BlockNumber`
constants), otherwise require a `0x` prefix and a hex uint64, converted to
the `int64`-backed `BlockNumber` by two's complement.  Errors are plain
strings; every caller wraps them in an invalid-params (-32602) RPC error. -/
def ParseBlockNumber (input : String) : Except String Int :=
  let t := goTrimSpace (goToLower input)
  if t = "latest" then Except.ok (-1)
  else if t = "earliest" then Except.ok 0
  else if t = "pending" then Except.ok (-2)
  else
    match hexTail t.data with
    | none => Except.error ("invalid block number: " ++ t)
    | some rest =>
        match parseHex16_64 rest with
        | none => Except.error ("invalid hex block number")
        | some n => Except.ok (int64OfUint64 n)

/-- The KV store for string-valued keys; `none` is the adapter's not-found. -/
abbrev Store := String → Option String

/-- `BlockReader.GetLatestBlockNumber`: read `idx:latest` and decode it as
decimal ASCII. -/
def getLatestBlockNumber (store : Store) : Except String Nat :=
  match store ("idx:latest") with
  | none => Except.error ("not found")
  | some s =>
      match parseUint10_64 s with
      | none => Except.error ("invalid syntax")
      | some n => Except.ok n

/-- `BlockAPI.resolveBlockNumber` (identical in `TransactionAPI`): latest and
pending resolve through `idx:latest`, earliest is 0, a non-negative number is
itself, a negative number (only reachable from a hex input at or above
`2^63`) fails `ToUint64`. -/
def blockApiResolveBlockNumber (store : Store) (bn : Int) : Except String Nat :=
  if bn = -1 ∨ bn = -2 then getLatestBlockNumber store
  else if bn = 0 then Except.ok 0
  else if bn < 0 then Except.error ("cannot convert to uint64")
  else Except.ok bn.toNat

/-- `StateAPI.resolveBlockNumber`: resolves the tag to the block-number
*string* used in state keys: latest and pending keep their names, earliest is
the string 0, numbers print in decimal. -/
def stateApiResolveBlockNumber (bn : Int) : Except String String :=
  if bn = -1 then Except.ok ("latest")
  else if bn = -2 then Except.ok ("pending")
  else if bn = 0 then Except.ok ("0")
  else if bn < 0 then Except.error ("cannot convert to uint64")
  else Except.ok (toString bn.toNat)

/-! ## Storage reads (`StateReader.GetStorageAt`, `StateAPI.GetStorageAt`) -/

/-- The KV store for byte-valued keys (raw storage slots); `none` is
not-found.  Bytes are `Nat`s (only lengths and positions matter here). -/
abbrev ByteStore := String → Option (List Nat)

/-- `StateReader.GetStorageAt`: build the storage key from the tag, address
hex and slot-key hex; a missing slot is the 32-byte zero hash.  `addr` and
`key` stand for the `Hex()` renderings used by the Go code. -/
def stateReaderGetStorageAt (store : ByteStore) (addr key blockNumber : String) :
    List Nat :=
  let storageKey :=
    if blockNumber = "latest" || blockNumber = "pending" then
      "st:latest:stor:" ++ addr ++ ":" ++ key
    else
      "st:" ++ blockNumber ++ ":stor:" ++ addr ++ ":" ++ key
  match store storageKey with
  | none => List.replicate 32 0
  | some v => v

/-- `StateAPI.GetStorageAt`: parse and resolve the tag, read the slot, then
left-pad into a fresh 32-byte buffer with
`copy(result[32-len(value):], value)`.  When the stored value is longer than
32 bytes the slice index `32-len(value)` is negative and Go panics: that
outcome is the outer `none`.  A resolution error is returned raw by the Go
method and surfaces as internal (-32603) once the dispatcher wraps it. -/
def stateApiGetStorageAt (store : ByteStore) (addr key blockNr : String) :
    Option (Except RPCErr (List Nat)) :=
  match ParseBlockNumber blockNr with
  | Except.error e => some (Except.error ⟨-32602, "invalid block number: " ++ e⟩)
  | Except.ok bn =>
      match stateApiResolveBlockNumber bn with
      | Except.error e => some (Except.error ⟨-32603, e⟩)
      | Except.ok blockNumStr =>
          let value := stateReaderGetStorageAt store addr key blockNumStr
          if value.length ≤ 32 then
            some (Except.ok (List.replicate (32 - value.length) 0 ++ value))
          else none

/-! ## Transaction admission (`TxPoolAPI.SendRawTransaction`) -/

/-- A decoded transaction as `SendRawTransaction` consumes it: nonce, gas
limit, optional legacy gas price, optional fee cap, value, optional chain id,
and the 32-byte hash abstracted to a `Nat` identity. -/
structure GoTx where
  nonce : Nat
  gas : Nat
  gasPrice : Option Int
  gasFeeCap : Option Int
  value : Int
  chainId : Option Nat
  hash : Nat
deriving DecidableEq, Repr

/-- The gas price `SendRawTransaction` charges with: `tx.GasPrice()` when
non-nil, else `tx.GasFeeCap()`, else zero (the two nil-checks in the
source). -/
def effGasPrice (tx : GoTx) : Int :=
  match tx.gasPrice with
  | some p => p
  | none =>
      match tx.gasFeeCap with
      | some c => c
      | none => 0

/-- `TxPoolAPI.SendRawTransaction`.  RLP decoding and ECDSA sender recovery
are go-ethereum library calls, embedded as the `decoded` argument (the decode
outcome) and the `recoverSender` oracle; the state reads at `latest` are the
`getNonce`/`getBalance` oracles (errors there are KV failures).  The pool
write `AddPendingTx` appends to `pool` (its own KV failure mode is not
modelled).  Returns the new pool and the transaction hash on success.
Check order follows the source: decode, signature, chain id, nonce, balance,
gas floor, insert. -/
def sendRawTransaction (chainID : Nat) (decoded : Option GoTx)
    (recoverSender : GoTx → Option Nat) (getNonce : Nat → Except String Nat)
    (getBalance : Nat → Except String Int) (pool : List GoTx) :
    Except RPCErr (List GoTx × Nat) :=
  match decoded with
  | none => Except.error ⟨-32001, "invalid transaction"⟩
  | some tx =>
      match recoverSender tx with
      | none => Except.error ⟨-32001, "invalid signature"⟩
      | some sender =>
          if (match tx.chainId with
              | some cid => cid != chainID
              | none => false : Bool) then
            Except.error ⟨-32001, "invalid chain id: got " ++
              (match tx.chainId with
               | some cid => toString cid
               | none => "0") ++ ", expected " ++ toString chainID⟩
          else
            match getNonce sender with
            | Except.error e =>
                Except.error ⟨-32603, "failed to get nonce: " ++ e⟩
            | Except.ok currentNonce =>
                if tx.nonce < currentNonce then
                  Except.error ⟨-32004, "nonce too low: got " ++
                    toString tx.nonce ++ ", expected >= " ++
                    toString currentNonce⟩
                else
                  match getBalance sender with
                  | Except.error e =>
                      Except.error ⟨-32603, "failed to get balance: " ++ e⟩
                  | Except.ok balance =>
                      let gasCost := effGasPrice tx * int64OfUint64 tx.gas
                      let totalCost := tx.value + gasCost
                      if balance < totalCost then
                        Except.error ⟨-32004, "insufficient funds: balance=" ++
                          toString balance ++ ", required=" ++
                          toString totalCost⟩
                      else if tx.gas < 21000 then
                        Except.error ⟨-32001, "gas limit too low: got " ++
                          toString tx.gas ++ ", minimum 21000"⟩
                      else
                        Except.ok (pool ++ [tx], tx.hash)

/-! ## Fee history (`GasAPI.FeeHistory`) -/

/-- The result shape of `eth_feeHistory`.  Base fees and rewards are wei
amounts (`Int` for Go's `big.Int`); the gas-used ratio entries are the exact
rational 1/2 the stub writes as the float 0.5.  `reward` is the empty list
when the Go slice stays nil. -/
structure FeeHistoryResult where
  oldestBlock : Int
  baseFeePerGas : List Int
  gasUsedRatio : List Rat
  reward : List (List Int)
deriving DecidableEq, Repr

/-- The end-block resolution inlined in `FeeHistory`: latest and pending go
through `idx:latest` (failures there are internal -32603), earliest is 0,
other values go through `ToUint64` (negative, i.e. hex at or above `2^63`,
is invalid params). -/
def feeHistoryEndBlock (store : Store) (bn : Int) : Except RPCErr Nat :=
  if bn = -1 ∨ bn = -2 then
    match getLatestBlockNumber store with
    | Except.error e =>
        Except.error ⟨-32603, "failed to get latest block: " ++ e⟩
    | Except.ok n => Except.ok n
  else if bn = 0 then Except.ok 0
  else if bn < 0 then
    Except.error ⟨-32602, "invalid block number: cannot convert to uint64"⟩
  else Except.ok bn.toNat

/-- `GasAPI.FeeHistory`.  Only the length of `rewardPercentiles` is ever
read, so the element type `P` stays abstract (the source takes `[]float64`).
The tag is parsed and resolved first; a zero count is bumped to 1; counts
above 1024 are invalid params; when fewer than `count` blocks exist the
window is clamped to `endBlock+1` blocks.  `startBlock` is the uint64
expression `endBlock - count + 1`, which under the guard
`endBlock ≥ count - 1` equals `endBlock + 1 - count` with no wrap. -/
def feeHistory {P : Type} (store : Store) (blockCount : Nat)
    (lastBlock : String) (rewardPercentiles : List P) :
    Except RPCErr FeeHistoryResult :=
  match ParseBlockNumber lastBlock with
  | Except.error e => Except.error ⟨-32602, "invalid block number: " ++ e⟩
  | Except.ok bn =>
      match feeHistoryEndBlock store bn with
      | Except.error e => Except.error e
      | Except.ok endBlock =>
          let count0 := if blockCount = 0 then 1 else blockCount
          if count0 > 1024 then
            Except.error ⟨-32602, "block count too large (max 1024)"⟩
          else
            let clamped := ¬ (endBlock ≥ count0 - 1)
            let startBlock := if clamped then 0 else endBlock + 1 - count0
            let count := if clamped then endBlock + 1 else count0
            Except.ok
              { oldestBlock := int64OfUint64 startBlock
                baseFeePerGas := List.replicate (count + 1) 5000000000
                gasUsedRatio := List.replicate count ((1 : Rat) / 2)
                reward :=
                  if rewardPercentiles.length > 0 then
                    List.replicate count
                      (List.replicate rewardPercentiles.length 1000000000)
                  else [] }

/-! ## JSON values and the JSON-RPC dispatcher
(`JSONRPCHandler.HandleRequest`, `HandleBatch`, `ParseRequest`) -/

/-- A JSON document.  Numbers are abstracted to `Int` (no claim depends on
fractional values) and objects keep their field order. -/
inductive Json where
  | null
  | bool (b : Bool)
  | num (n : Int)
  | str (s : String)
  | arr (xs : List Json)
  | obj (fields : List (String × Json))

/-- `JSONRPCRequest` after `encoding/json` unmarshalling: absent `jsonrpc`
and `method` are the empty string, the `id` and `params` values are kept
verbatim (`interface{}` / `json.RawMessage`), absent ones are JSON null. -/
structure Request where
  jsonrpc : String
  id : Json
  method : String
  params : Json

/-- `JSONRPCResponse`: version, echoed id, and exactly one of result or
error populated by the dispatcher. -/
structure Response where
  jsonrpc : String
  id : Json
  result : Option Json
  error : Option RPCErr

/-- Go `encoding/json` object-field selection: the last binding of a key
wins when a document repeats it. -/
def jsonFieldLast (fields : List (String × Json)) (k : String) : Option Json :=
  match fields with
  | [] => none
  | (k', v) :: rest =>
      match jsonFieldLast rest k with
      | some r => some r
      | none => if k' = k then some v else none

/-- Unmarshal a JSON value into a Go `string` field: absent and null leave
the zero value, a string sets it, anything else is an unmarshal error. -/
def decodeStringField (v : Option Json) : Except Unit String :=
  match v with
  | none => Except.ok ""
  | some Json.null => Except.ok ""
  | some (Json.str s) => Except.ok s
  | some _ => Except.error ()

/-- `json.Unmarshal(data, &single)` for `JSONRPCRequest`: only objects
decode; `jsonrpc` and `method` must be strings when present. -/
def decodeRequest (j : Json) : Option Request :=
  match j with
  | Json.obj fields =>
      match decodeStringField (jsonFieldLast fields ("jsonrpc")),
            decodeStringField (jsonFieldLast fields ("method")) with
      | Except.ok v, Except.ok m =>
          some ⟨v, (jsonFieldLast fields ("id")).getD Json.null, m,
            (jsonFieldLast fields ("params")).getD Json.null⟩
      | _, _ => none
  | _ => none

/-- One element of a `[]*JSONRPCRequest` unmarshal: JSON null becomes a nil
pointer (`none`), an object decodes, anything else fails the whole
unmarshal. -/
def decodeBatchElem (j : Json) : Option (Option Request) :=
  match j with
  | Json.null => some none
  | Json.obj _ => (decodeRequest j).map some
  | _ => none

/-- `json.Unmarshal(data, &batch)` for `[]*JSONRPCRequest`. -/
def decodeBatch (j : Json) : Option (List (Option Request)) :=
  match j with
  | Json.arr xs => xs.mapM decodeBatchElem
  | _ => none

/-- `ParseRequest`: try the single-request unmarshal first and accept it
when `jsonrpc` is non-empty; otherwise try the batch unmarshal — failure is
a parse error (-32700), an empty batch is invalid request (-32600). -/
def ParseRequest (body : Json) :
    Except RPCErr (Request ⊕ List (Option Request)) :=
  let singleOk :=
    match decodeRequest body with
    | some r => if r.jsonrpc ≠ "" then some r else none
    | none => none
  match singleOk with
  | some r => Except.ok (Sum.inl r)
  | none =>
      match decodeBatch body with
      | none => Except.error ⟨-32700, "failed to parse request"⟩
      | some [] => Except.error ⟨-32600, "empty batch request"⟩
      | some batch => Except.ok (Sum.inr batch)

/-! ## Rate limiting (`RateLimiter.Allow`) -/

/-- A token bucket as observed at one instant: the tokens currently
available (`golang.org/x/time/rate` refills over time; a single `Allow` call
consumes one token when available and consumes nothing when it denies). -/
structure Bucket where
  tokens : Nat
deriving DecidableEq, Repr

/-- `rate.Limiter.Allow`: take a token when one is available. -/
def bucketAllow (b : Bucket) : Bool × Bucket :=
  if b.tokens = 0 then (false, b) else (true, ⟨b.tokens - 1⟩)

/-- `middleware.RateLimiter`: the global bucket (absent when the global rate
is unconfigured), the per-peer configuration, the per-method limits, and the
`sync.Map` that holds both per-peer buckets (keyed by peer id) and
per-method buckets (keyed by `method:` + name). -/
structure RateLimiter where
  enabled : Bool
  global : Option Bucket
  ipRate : Int
  ipBurst : Nat
  methodLimits : List (String × Int)
  buckets : List (String × Bucket)
deriving DecidableEq, Repr

/-- The per-method stage of `RateLimiter.Allow`: a configured positive
method rate selects (creating on first use, burst = rate) the bucket keyed
`method:` + name. -/
def rlAllowMethod (rl : RateLimiter) (method : String) :
    (Bool × String) × RateLimiter :=
  match mapLookup rl.methodLimits method with
  | some methodRate =>
      if methodRate > 0 then
        let key := "method:" ++ method
        let bs0 :=
          match mapLookup rl.buckets key with
          | some _ => rl.buckets
          | none => mapInsert rl.buckets key ⟨methodRate.toNat⟩
        let b := (mapLookup bs0 key).getD ⟨methodRate.toNat⟩
        let (ok, b') := bucketAllow b
        let rl' := { rl with buckets := mapInsert bs0 key b' }
        if ok then ((true, ""), rl') else ((false, "method"), rl')
      else ((true, ""), rl)
  | none => ((true, ""), rl)

/-- The per-peer stage of `RateLimiter.Allow`: skipped when the peer rate is
non-positive (`getIPLimiter` returns nil); otherwise the peer's bucket is
created on first use with `ipBurst` tokens and must yield a token. -/
def rlAllowIp (rl : RateLimiter) (ip method : String) :
    (Bool × String) × RateLimiter :=
  if rl.ipRate ≤ 0 then rlAllowMethod rl method
  else
    let bs0 :=
      match mapLookup rl.buckets ip with
      | some _ => rl.buckets
      | none => mapInsert rl.buckets ip ⟨rl.ipBurst⟩
    let b := (mapLookup bs0 ip).getD ⟨rl.ipBurst⟩
    let (ok, b') := bucketAllow b
    let rl' := { rl with buckets := mapInsert bs0 ip b' }
    if ok then rlAllowMethod rl' method else ((false, "ip"), rl')

/-- `RateLimiter.Allow`: disabled limiters admit everything; otherwise the
global, then per-peer, then per-method buckets are consulted in that order,
and the first denial reports its scope tag. -/
def rlAllow (rl : RateLimiter) (ip method : String) :
    (Bool × String) × RateLimiter :=
  if rl.enabled = false then ((true, ""), rl)
  else
    match rl.global with
    | some g =>
        let (ok, g') := bucketAllow g
        let rl' := { rl with global := some g' }
        if ok then rlAllowIp rl' ip method else ((false, "global"), rl')
    | none => rlAllowIp rl ip method

/-! ## Request handling (`JSONRPCHandler.HandleRequest`, `HandleBatch`) -/

/-- `JSONRPCHandler.HandleRequest`.  The reflective registry and
`executeMethod` (parameter binding plus the handler call, including the
invalid-params and internal-error wrapping) are embedded as the `methods`
map from method name to a function of the raw `params`.  The rate limiter is
threaded as explicit state. -/
def handleRequest (methods : String → Option (Json → Except RPCErr Json))
    (rl : Option RateLimiter) (req : Request) (ip : String) :
    Response × Option RateLimiter :=
  if req.jsonrpc ≠ "2.0" then
    (⟨"2.0", req.id, none, some ⟨-32600, "invalid jsonrpc version"⟩⟩, rl)
  else
    let checked : Option RateLimiter × Option String :=
      match rl with
      | none => (none, none)
      | some r =>
          let res := rlAllow r ip req.method
          (some res.2, if res.1.1 then none else some res.1.2)
    match checked.2 with
    | some tag =>
        (⟨"2.0", req.id, none,
          some ⟨-32006, "rate limit exceeded: " ++ tag⟩⟩, checked.1)
    | none =>
        match methods req.method with
        | none =>
            (⟨"2.0", req.id, none,
              some ⟨-32601, "method not found: " ++ req.method⟩⟩, checked.1)
        | some f =>
            match f req.params with
            | Except.error e => (⟨"2.0", req.id, none, some e⟩, checked.1)
            | Except.ok v => (⟨"2.0", req.id, some v, none⟩, checked.1)

/-- `JSONRPCHandler.HandleBatch`: dispatch the entries front to back,
threading the rate-limiter state, collecting responses in input order. -/
def handleBatch (methods : String → Option (Json → Except RPCErr Json))
    (rl : Option RateLimiter) (reqs : List Request) (ip : String) :
    List Response × Option RateLimiter :=
  match reqs with
  | [] => ([], rl)
  | r :: rest =>
      let first := handleRequest methods rl r ip
      let rec_ := handleBatch methods first.2 rest ip
      (first.1 :: rec_.1, rec_.2)

/-- `RPCError.Error()` (`pkg/api/types.go`): the Go error string
`rpc error: code=%d, message=%s`. -/
def rpcErrString (e : RPCErr) : String :=
  "rpc error: code=" ++ toString e.code ++ ", message=" ++ e.message

/-- `HTTPServer.handleRPC` (`pkg/server/http.go`) after the body read:
parse, then dispatch a single request or a batch.  Every `ParseRequest`
error is answered through `sendJSONRPCError(w, nil, -32700, err.Error())`:
the original error's code is discarded, the response carries code -32700
with a null id and the Go error string as its message.  (The WebSocket
reader re-codes parse failures to -32700 the same way.)  A batch entry that
unmarshalled from JSON null is a nil pointer and makes `HandleRequest`
dereference it — the outer `none`. -/
def handleRPC (methods : String → Option (Json → Except RPCErr Json))
    (rl : Option RateLimiter) (body : Json) (ip : String) :
    Option (Sum Response (List Response)) :=
  match ParseRequest body with
  | Except.error e =>
      some (Sum.inl ⟨"2.0", Json.null, none, some ⟨-32700, rpcErrString e⟩⟩)
  | Except.ok (Sum.inl req) =>
      some (Sum.inl (handleRequest methods rl req ip).1)
  | Except.ok (Sum.inr batch) =>
      (batch.mapM id).map
        (fun reqs => Sum.inr (handleBatch methods rl reqs ip).1)

/-! ## Transaction by block number and index
(`TransactionReader.GetTransactionByBlockNumberAndIndex`,
`TransactionAPI.GetTransactionByBlockNumberAndIndex`) -/

/-- The storage-level read: fetch `blk:body:{n}` (`bodies` maps height to
the decoded transaction list, `none` for the KV not-found) and index into
it; an out-of-range index returns the same `ErrNotFound` as a missing body.
Transactions are abstracted to `Nat` identities. -/
def storageGetTxByNumberAndIndex (bodies : Nat → Option (List Nat))
    (blockNumber index : Nat) : Except Unit Nat :=
  match bodies blockNumber with
  | none => Except.error ()
  | some txs =>
      if h : index < txs.length then Except.ok (txs.get ⟨index, h⟩)
      else Except.error ()

/-- `TransactionAPI.GetTransactionByBlockNumberAndIndex`: parse and resolve
the tag, read the transaction (storage `ErrNotFound` becomes the null
result), then fetch the block header for the hash (`headers` maps height to
presence; any failure there, including not-found, is internal -32603).
A resolution error is returned raw and surfaces as internal -32603. -/
def txApiGetTransactionByBlockNumberAndIndex (store : Store)
    (bodies : Nat → Option (List Nat)) (headers : Nat → Option Unit)
    (blockNr : String) (index : Nat) : Except RPCErr (Option Nat) :=
  match ParseBlockNumber blockNr with
  | Except.error e => Except.error ⟨-32602, "invalid block number: " ++ e⟩
  | Except.ok bn =>
      match blockApiResolveBlockNumber store bn with
      | Except.error e => Except.error ⟨-32603, e⟩
      | Except.ok number =>
          match storageGetTxByNumberAndIndex bodies number index with
          | Except.error _ => Except.ok none
          | Except.ok tx =>
              match headers number with
              | none => Except.error ⟨-32603, "failed to get block header"⟩
              | some _ => Except.ok (some tx)

/-! ## Theorems -/

/-- Auxiliary: `mapInsert` leaves the lookups of other keys unchanged. -/
theorem mapLookup_mapInsert_other {α : Type} (m : List (String × α))
    (k k' : String) (v : α) (h : k' ≠ k) :
    mapLookup (mapInsert m k v) k' = mapLookup m k' := by
  induction m with
  | nil => simp [mapInsert, mapLookup, Ne.symm h]
  | cons hd tl ih =>
      obtain ⟨k'', v''⟩ := hd
      by_cases hk : k'' = k
      · subst hk
        simp [mapInsert, mapLookup, Ne.symm h]
      · simp only [mapInsert, hk, if_false, mapLookup]
        by_cases hk2 : k'' = k' <;> simp [hk2, ih]

/-- C10: `generateSubscriptionID` returns the hex encoding of the first 16
bytes of the 32-byte big-endian representation of 1 — the constant string
`0x` followed by 32 zero digits — on every call; hence any two `Subscribe`
calls return the same id and the second call overwrites the first record in
the id-keyed registry, whatever the owning connections are. -/
theorem subscription_id_constant_and_replaces :
    generateSubscriptionID = "0x00000000000000000000000000000000" ∧
    ∀ (st : SubState) (c1 c2 : Nat) (t1 t2 : String)
      (f1 f2 : Option GoFilterCriteria),
      (subscribe st c1 t1 f1).1 =
        (subscribe (subscribe st c1 t1 f1).2 c2 t2 f2).1 ∧
      mapLookup (subscribe (subscribe st c1 t1 f1).2 c2 t2 f2).2.subscriptions
          (subscribe st c1 t1 f1).1 =
        some ⟨generateSubscriptionID, t2, f2, c2⟩ := by
  refine ⟨by decide, ?_⟩
  intro st c1 c2 t1 t2 f1 f2
  refine ⟨rfl, ?_⟩
  simpa [subscribe] using
    mapLookup_mapInsert_self
      (mapInsert st.subscriptions generateSubscriptionID
        ⟨generateSubscriptionID, t1, f1, c1⟩)
      generateSubscriptionID ⟨generateSubscriptionID, t2, f2, c2⟩

/-- C9 counterexample: the claim's matching condition calls an empty topic
set a wildcard even at a position beyond the log's topics, but the code
returns false there first.  With a topic-less log and the filter
`topics = [[]]` (one wildcard position, no address constraint) the claim's
condition holds while `matchLogFilter` rejects. -/
theorem matchLogFilter_claim_counterexample :
    matchLogFilter ⟨0, []⟩ ⟨[], [[]]⟩ = false ∧
    claimLogMatchCondition ⟨0, []⟩ ⟨[], [[]]⟩ := by
  constructor
  · rfl
  · decide

/-- The per-position condition `matchLogFilter` actually decides: every
filter position must exist in the log's topics, and there the set is either
empty or holds that topic. -/
def amendedLogMatchCondition (log : GoLog) (filter : GoFilterCriteria) : Prop :=
  (filter.addresses = [] ∨ log.address ∈ filter.addresses) ∧
    ∀ i, ∀ hf : i < filter.topics.length,
      ∃ h : i < log.topics.length,
        filter.topics.get ⟨i, hf⟩ = [] ∨
          log.topics.get ⟨i, h⟩ ∈ filter.topics.get ⟨i, hf⟩

instance (log : GoLog) (filter : GoFilterCriteria) :
    Decidable (amendedLogMatchCondition log filter) := by
  unfold amendedLogMatchCondition
  exact instDecidableAnd

/-- Auxiliary: the topic loop decides exactly the positional condition with
the existence of the log topic required before the wildcard test. -/
theorem matchTopics_iff (fts : List (List Nat)) (lts : List Nat) :
    matchTopics fts lts = true ↔
      ∀ i, ∀ hf : i < fts.length,
        ∃ h : i < lts.length,
          fts.get ⟨i, hf⟩ = [] ∨ lts.get ⟨i, h⟩ ∈ fts.get ⟨i, hf⟩ := by
  induction fts generalizing lts with
  | nil =>
      simp only [matchTopics, List.length_nil, true_iff]
      intro i hf
      exact absurd hf (Nat.not_lt_zero i)
  | cons ts rest ih =>
      cases lts with
      | nil =>
          simp only [matchTopics, Bool.false_eq_true, false_iff]
          intro hall
          obtain ⟨h, _⟩ := hall 0 (Nat.succ_pos _)
          exact absurd h (Nat.not_lt_zero 0)
      | cons t lrest =>
          have step : matchTopics (ts :: rest) (t :: lrest) = true ↔
              (ts = [] ∨ t ∈ ts) ∧ matchTopics rest lrest = true := by
            by_cases hts : ts = []
            · simp [matchTopics, hts]
            · by_cases hmem : ts.contains t
              · have hm : t ∈ ts := by
                  simpa [List.contains, List.elem_iff] using hmem
                simp [matchTopics, hts, hmem, hm]
              · have hm : t ∉ ts := by
                  intro hmm
                  exact hmem (by simpa [List.contains, List.elem_iff] using hmm)
                simp [matchTopics, hts, hmem, hm]
          rw [step, ih]
          constructor
          · rintro ⟨h0, hrest⟩ i hf
            cases i with
            | zero =>
                exact ⟨Nat.succ_pos _, by simpa using h0⟩
            | succ j =>
                obtain ⟨h, hv⟩ := hrest j (Nat.lt_of_succ_lt_succ hf)
                exact ⟨Nat.succ_lt_succ h, by simpa using hv⟩
          · intro hall
            constructor
            · obtain ⟨_, hv⟩ := hall 0 (Nat.succ_pos _)
              simpa using hv
            · intro j hj
              obtain ⟨h, hv⟩ := hall (j + 1) (Nat.succ_lt_succ hj)
              exact ⟨Nat.lt_of_succ_lt_succ h, by simpa using hv⟩

/-- C9 amended: a log matches iff the address condition holds and every
filter topic position i also exists among the log's topics and there either
the set is empty or the log's topic at i lies in it; in particular a filter
with more topic positions than the log has topics never matches. -/
theorem matchLogFilter_characterization (log : GoLog)
    (filter : GoFilterCriteria) :
    (matchLogFilter log filter = true ↔ amendedLogMatchCondition log filter) ∧
    (log.topics.length < filter.topics.length →
      matchLogFilter log filter = false) := by
  have hiff : matchLogFilter log filter = true ↔
      amendedLogMatchCondition log filter := by
    unfold matchLogFilter amendedLogMatchCondition
    rw [Bool.and_eq_true, Bool.or_eq_true, matchTopics_iff]
    have haddr : (decide (filter.addresses = []) = true ∨
        filter.addresses.contains log.address = true) ↔
        (filter.addresses = [] ∨ log.address ∈ filter.addresses) := by
      constructor
      · rintro (ha | ha)
        · exact Or.inl (by simpa using ha)
        · exact Or.inr (by simpa [List.contains, List.elem_iff] using ha)
      · rintro (ha | ha)
        · exact Or.inl (by simpa using ha)
        · exact Or.inr (by simpa [List.contains, List.elem_iff] using ha)
    exact and_congr haddr Iff.rfl
  refine ⟨hiff, ?_⟩
  intro hlen
  by_contra hne
  have htrue : matchLogFilter log filter = true := by
    cases hm : matchLogFilter log filter
    · exact absurd hm hne
    · rfl
  obtain ⟨_, ht⟩ := hiff.mp htrue
  obtain ⟨h, _⟩ := ht log.topics.length hlen
  exact absurd h (lt_irrefl _)

/-- C9 amended witness: a concrete log and filter where the
characterization applies and yields a match. -/
theorem matchLogFilter_characterization_witness :
    matchLogFilter ⟨5, [8, 9]⟩ ⟨[5], [[], [9, 10]]⟩ = true :=
  (matchLogFilter_characterization ⟨5, [8, 9]⟩ ⟨[5], [[], [9, 10]]⟩).1.mpr
    (by decide)

/-- C3 counterexample: a stored slot value longer than 32 bytes makes
`copy(result[32-len(value):], value)` panic (negative slice index), so the
call does not return a 32-byte result; the claim's quantifier over every
storable byte string fails. -/
theorem getStorageAt_claim_counterexample :
    stateApiGetStorageAt
      (fun k => if k = "st:latest:stor:A:K" then some (List.replicate 33 1)
        else none)
      ("A") ("K") ("latest") = none := by
  decide

/-- C3 amended: whenever the tag parses and resolves and the stored value
has at most 32 bytes (in particular whenever the slot is absent, which reads
as 32 zero bytes), `getStorageAt` succeeds with exactly 32 bytes: the value
left-padded with zeros; an absent slot yields the 32-byte zero word. -/
theorem getStorageAt_pads_to_32 (store : ByteStore) (addr key blockNr : String)
    (bn : Int) (bstr : String)
    (hp : ParseBlockNumber blockNr = Except.ok bn)
    (hr : stateApiResolveBlockNumber bn = Except.ok bstr)
    (hlen : (stateReaderGetStorageAt store addr key bstr).length ≤ 32) :
    stateApiGetStorageAt store addr key blockNr =
      some (Except.ok
        (List.replicate (32 - (stateReaderGetStorageAt store addr key bstr).length) 0 ++
          stateReaderGetStorageAt store addr key bstr)) ∧
    (List.replicate (32 - (stateReaderGetStorageAt store addr key bstr).length) 0 ++
        stateReaderGetStorageAt store addr key bstr).length = 32 ∧
    (stateReaderGetStorageAt store addr key bstr = List.replicate 32 0 →
      stateApiGetStorageAt store addr key blockNr =
        some (Except.ok (List.replicate 32 0))) := by
  have h1 : stateApiGetStorageAt store addr key blockNr =
      some (Except.ok
        (List.replicate (32 - (stateReaderGetStorageAt store addr key bstr).length) 0 ++
          stateReaderGetStorageAt store addr key bstr)) := by
    simp only [stateApiGetStorageAt, hp, hr]
    simp [hlen]
  refine ⟨h1, ?_, ?_⟩
  · simp only [List.length_append, List.length_replicate]
    omega
  · intro hz
    rw [h1, hz]
    simp

/-- The concrete byte store used by the C3 witness: one two-byte value at
the latest-tag storage key for address hex `A`, slot hex `K`. -/
def c3WitnessStore : ByteStore :=
  fun k => if k = "st:latest:stor:A:K" then some [7, 8] else none

/-- C3 witness: the padding theorem applied at a concrete store, address,
slot and the `latest` tag. -/
theorem getStorageAt_pads_to_32_witness :
    stateApiGetStorageAt c3WitnessStore ("A") ("K") ("latest") =
      some (Except.ok (List.replicate 30 0 ++ [7, 8])) := by
  have h := (getStorageAt_pads_to_32 c3WitnessStore ("A") ("K") ("latest")
    (-1) ("latest") (by decide) (by decide) (by decide)).1
  exact h

/-- The acceptance condition exactly as the claim words it: the three
literals up to case, or a 0x-prefixed hex string fitting in uint64 — with
no whitespace trimming.  Written from the claim's words, to be compared
with `ParseBlockNumber`. -/
def claimBlockTagAccepted (s : String) : Bool :=
  let t := goToLower s
  t = "latest" || t = "earliest" || t = "pending" ||
    (match hexTail t.data with
     | some rest => (parseHex16_64 rest).isSome
     | none => false)

/-- The acceptance condition the code implements: the same forms, after
trimming surrounding whitespace. -/
def amendedBlockTagAccepted (s : String) : Bool :=
  let t := goTrimSpace (goToLower s)
  t = "latest" || t = "earliest" || t = "pending" ||
    (match hexTail t.data with
     | some rest => (parseHex16_64 rest).isSome
     | none => false)

/-- Whether an `Except` computation succeeded. -/
def isOkE {ε α : Type} : Except ε α → Bool
  | Except.ok _ => true
  | Except.error _ => false

/-- C6 counterexample: a leading space is accepted by the code
(`strings.TrimSpace` runs before matching) although the input is neither a
case variant of a literal nor a 0x-hex string, contradicting the claim that
every other input fails. -/
theorem parseBlockNumber_claim_counterexample :
    claimBlockTagAccepted (" latest") = false ∧
    ParseBlockNumber (" latest") = Except.ok (-1) := by
  constructor <;> decide

/-- C6 amended: after trimming surrounding whitespace and lowercasing, the
parser accepts exactly the three literals and 0x-prefixed hex uint64
strings; `earliest` resolves to height 0, `latest` and `pending` resolve
through the `idx:latest` key; every rejected input surfaces as invalid
params (-32602) at the API call sites. -/
theorem parseBlockNumber_characterization (s : String) (store : Store)
    (bstore : ByteStore) (addr key : String) :
    (isOkE (ParseBlockNumber s) = amendedBlockTagAccepted s) ∧
    (goTrimSpace (goToLower s) = "earliest" →
      ParseBlockNumber s = Except.ok 0 ∧
      blockApiResolveBlockNumber store 0 = Except.ok 0) ∧
    (goTrimSpace (goToLower s) = "latest" →
      ParseBlockNumber s = Except.ok (-1) ∧
      blockApiResolveBlockNumber store (-1) = getLatestBlockNumber store) ∧
    (goTrimSpace (goToLower s) = "pending" →
      ParseBlockNumber s = Except.ok (-2) ∧
      blockApiResolveBlockNumber store (-2) = getLatestBlockNumber store) ∧
    (amendedBlockTagAccepted s = false →
      ∃ m, stateApiGetStorageAt bstore addr key s =
        some (Except.error ⟨-32602, m⟩)) := by
  have hchar : isOkE (ParseBlockNumber s) = amendedBlockTagAccepted s := by
    unfold ParseBlockNumber amendedBlockTagAccepted
    by_cases h1 : goTrimSpace (goToLower s) = "latest"
    · simp [h1, isOkE]
    · by_cases h2 : goTrimSpace (goToLower s) = "earliest"
      · simp [h1, h2, isOkE]
      · by_cases h3 : goTrimSpace (goToLower s) = "pending"
        · simp [h1, h2, h3, isOkE]
        · cases hht : hexTail (goTrimSpace (goToLower s)).data with
          | none => simp [h1, h2, h3, hht, isOkE]
          | some rest =>
              cases hpu : parseHex16_64 rest with
              | none => simp [h1, h2, h3, hht, hpu, isOkE]
              | some n => simp [h1, h2, h3, hht, hpu, isOkE]
  refine ⟨hchar, ?_, ?_, ?_, ?_⟩
  · intro h
    have h1 : goTrimSpace (goToLower s) ≠ "latest" := by
      rw [h]; decide
    refine ⟨?_, ?_⟩
    · unfold ParseBlockNumber
      simp [h, h1]
    · unfold blockApiResolveBlockNumber
      norm_num
  · intro h
    refine ⟨?_, ?_⟩
    · unfold ParseBlockNumber
      simp [h]
    · unfold blockApiResolveBlockNumber
      norm_num
  · intro h
    have h1 : goTrimSpace (goToLower s) ≠ "latest" := by
      rw [h]; decide
    have h2 : goTrimSpace (goToLower s) ≠ "earliest" := by
      rw [h]; decide
    refine ⟨?_, ?_⟩
    · unfold ParseBlockNumber
      simp [h, h1, h2]
    · unfold blockApiResolveBlockNumber
      norm_num
  · intro hrej
    have hnotok : isOkE (ParseBlockNumber s) = false := by
      rw [hchar, hrej]
    cases hp : ParseBlockNumber s with
    | ok v => rw [hp] at hnotok; simp [isOkE] at hnotok
    | error e =>
        refine ⟨"invalid block number: " ++ e, ?_⟩
        unfold stateApiGetStorageAt
        rw [hp]

/-- C2 counterexample: with the chain at height 10, `feeHistory(0, latest,
[])` answers with `baseFeePerGas` of length 2 and `gasUsedRatio` of length
1, not the lengths 0+1 and 0 the claim requires for every `count ≤ 1024`
(the code bumps a zero count to 1 before building the window). -/
theorem feeHistory_claim_counterexample :
    (feeHistory (fun k => if k = "idx:latest" then some ("10") else none) 0
        ("latest") ([] : List Unit)).map
      (fun r => (r.baseFeePerGas.length, r.gasUsedRatio.length)) =
      Except.ok (2, 1) := by
  decide

/-- C2 amended: writing `effCount = min (max 1 count) (endBlock+1)` for the
effective window (a zero count is bumped to 1, and the window is clamped to
the chain height), a call whose tag parses and resolves returns
`baseFeePerGas` of length `effCount+1`, `gasUsedRatio` of length
`effCount`, and a reward matrix of shape `effCount × |percentiles|` when
percentiles are non-empty; `count > 1024` fails with invalid params
(-32602). -/
theorem feeHistory_shape (store : Store) (blockCount : Nat)
    (lastBlock : String) {P : Type} (rewardPercentiles : List P) (bn : Int)
    (endBlock : Nat)
    (hp : ParseBlockNumber lastBlock = Except.ok bn)
    (hres : feeHistoryEndBlock store bn = Except.ok endBlock) :
    (max 1 blockCount ≤ 1024 →
      (feeHistory store blockCount lastBlock rewardPercentiles).map
          (fun r => (r.baseFeePerGas.length, r.gasUsedRatio.length,
            r.reward.map (fun row => row.length))) =
        Except.ok (min (max 1 blockCount) (endBlock + 1) + 1,
          min (max 1 blockCount) (endBlock + 1),
          if rewardPercentiles.isEmpty then []
          else List.replicate (min (max 1 blockCount) (endBlock + 1))
            rewardPercentiles.length)) ∧
    (1024 < blockCount →
      feeHistory store blockCount lastBlock rewardPercentiles =
        Except.error ⟨-32602, "block count too large (max 1024)"⟩) := by
  constructor
  · intro hle
    have hc0le : (if blockCount = 0 then 1 else blockCount) ≤ 1024 := by
      by_cases h0 : blockCount = 0
      · simp [h0]
      · simp only [if_neg h0]
        omega
    have hcount : (if (¬ (endBlock ≥ (if blockCount = 0 then 1 else blockCount) - 1))
        then endBlock + 1 else (if blockCount = 0 then 1 else blockCount)) =
        min (max 1 blockCount) (endBlock + 1) := by
      by_cases h0 : blockCount = 0
      · simp only [if_pos h0]
        by_cases hcl : endBlock ≥ 1 - 1 <;> simp [h0, hcl]
      · simp only [if_neg h0]
        by_cases hcl : endBlock ≥ blockCount - 1 <;> simp [h0, hcl] <;> omega
    simp only [feeHistory, hp, hres]
    rw [if_neg (Nat.not_lt.mpr hc0le)]
    rw [hcount]
    cases rewardPercentiles with
    | nil => simp [Except.map]
    | cons p ps => simp [Except.map, List.map_replicate]
  · intro hgt
    have hc0 : (if blockCount = 0 then 1 else blockCount) > 1024 := by
      rw [if_neg (by omega)]
      omega
    simp only [feeHistory, hp, hres]
    rw [if_pos hc0]

/-- C2 amended witness: at height 5 with count 3 and two percentiles the
shapes are 4, 3 and 3 × 2. -/
theorem feeHistory_shape_witness :
    (feeHistory (fun k => if k = "idx:latest" then some ("5") else none) 3
        ("latest") ([(), ()])).map
      (fun r => (r.baseFeePerGas.length, r.gasUsedRatio.length,
        r.reward.map (fun row => row.length))) =
      Except.ok (4, 3, [2, 2, 2]) := by
  have h := (feeHistory_shape
      (fun k => if k = "idx:latest" then some ("5") else none) 3 ("latest")
      ([(), ()]) (-1) 5 (by decide) (by decide)).1 (by decide)
  exact h.trans (by decide)

/-- C8 counterexample: block 1 exists (its body holds one transaction and
its header is present) yet requesting index 5 returns a null result with no
error — the storage layer reports the out-of-range index as the same
not-found the API maps to null, never the claimed -32002. -/
theorem txByIndex_claim_counterexample :
    txApiGetTransactionByBlockNumberAndIndex
      (fun k => if k = "idx:latest" then some ("1") else none)
      (fun n => if n = 1 then some [7] else none)
      (fun n => if n = 1 then some () else none)
      ("0x1") 5 = Except.ok none := by
  decide

/-- C8 amended: a missing block and an out-of-range index on an existing
block both produce the null result with no error; an in-range index (with
the header readable) returns the transaction. -/
theorem txByIndex_characterization (store : Store)
    (bodies : Nat → Option (List Nat)) (headers : Nat → Option Unit)
    (blockNr : String) (index : Nat) (bn : Int) (number : Nat)
    (hp : ParseBlockNumber blockNr = Except.ok bn)
    (hres : blockApiResolveBlockNumber store bn = Except.ok number) :
    (bodies number = none →
      txApiGetTransactionByBlockNumberAndIndex store bodies headers blockNr
        index = Except.ok none) ∧
    (∀ txs, bodies number = some txs → txs.length ≤ index →
      txApiGetTransactionByBlockNumberAndIndex store bodies headers blockNr
        index = Except.ok none) ∧
    (∀ txs, ∀ h : index < txs.length, bodies number = some txs →
      headers number = some () →
      txApiGetTransactionByBlockNumberAndIndex store bodies headers blockNr
        index = Except.ok (some (txs.get ⟨index, h⟩))) := by
  refine ⟨?_, ?_, ?_⟩
  · intro hb
    simp only [txApiGetTransactionByBlockNumberAndIndex, hp, hres,
      storageGetTxByNumberAndIndex, hb]
  · intro txs hb hle
    simp only [txApiGetTransactionByBlockNumberAndIndex, hp, hres,
      storageGetTxByNumberAndIndex, hb]
    rw [dif_neg (Nat.not_lt.mpr hle)]
  · intro txs h hb hh
    simp only [txApiGetTransactionByBlockNumberAndIndex, hp, hres,
      storageGetTxByNumberAndIndex, hb]
    rw [dif_pos h]
    simp only [hh]

/-- C8 amended witness: the in-range case at block 1, index 1 of a two-
transaction body. -/
theorem txByIndex_characterization_witness :
    txApiGetTransactionByBlockNumberAndIndex
      (fun k => if k = "idx:latest" then some ("1") else none)
      (fun n => if n = 1 then some [7, 8] else none)
      (fun n => if n = 1 then some () else none)
      ("latest") 1 = Except.ok (some 8) := by
  have h := (txByIndex_characterization
      (fun k => if k = "idx:latest" then some ("1") else none)
      (fun n => if n = 1 then some [7, 8] else none)
      (fun n => if n = 1 then some () else none)
      ("latest") 1 (-1) 1 (by decide) (by decide)).2.2
      [7, 8] (by decide) (by decide) (by decide)
  exact h

/-- C4: every response the dispatcher builds carries `jsonrpc = "2.0"` and
echoes the request's id verbatim (whatever JSON value it is, including
null), and a request whose `jsonrpc` field differs from `"2.0"` is answered
with the invalid-request error -32600. -/
theorem handleRequest_id_echo
    (methods : String → Option (Json → Except RPCErr Json))
    (rl : Option RateLimiter) (req : Request) (ip : String) :
    (handleRequest methods rl req ip).1.jsonrpc = "2.0" ∧
    (handleRequest methods rl req ip).1.id = req.id ∧
    (req.jsonrpc ≠ "2.0" →
      (handleRequest methods rl req ip).1.error =
        some ⟨-32600, "invalid jsonrpc version"⟩) := by
  by_cases hv : req.jsonrpc = "2.0"
  · have hcond : ¬ (req.jsonrpc ≠ "2.0") := by simp [hv]
    cases rl with
    | none =>
        simp only [handleRequest, if_neg hcond]
        cases hm : methods req.method with
        | none => simp [hm, hv]
        | some f =>
            cases hf : f req.params with
            | error e => simp [hm, hf, hv]
            | ok v => simp [hm, hf, hv]
    | some r =>
        simp only [handleRequest, if_neg hcond]
        cases hall : (rlAllow r ip req.method).1.1 with
        | false => simp [hall, hv]
        | true =>
            cases hm : methods req.method with
            | none => simp [hall, hm, hv]
            | some f =>
                cases hf : f req.params with
                | error e => simp [hall, hm, hf, hv]
                | ok v => simp [hall, hm, hf, hv]
  · simp [handleRequest, hv]

/-- C4 witness: a request with version 1.0 and numeric id 7 is answered
with -32600 and the id echoed. -/
theorem handleRequest_id_echo_witness :
    (handleRequest (fun _ => none) none
        ⟨"1.0", Json.num 7, "m", Json.null⟩ ("ip")).1.id = Json.num 7 ∧
    (handleRequest (fun _ => none) none
        ⟨"1.0", Json.num 7, "m", Json.null⟩ ("ip")).1.error =
      some ⟨-32600, "invalid jsonrpc version"⟩ := by
  have h := handleRequest_id_echo (fun _ => none) none
    ⟨"1.0", Json.num 7, "m", Json.null⟩ ("ip")
  exact ⟨h.2.1, h.2.2 (by decide)⟩

/-- Auxiliary: a successful `mapM` over `Option` preserves length. -/
theorem mapM_option_length {α β : Type} (f : α → Option β) :
    ∀ (xs : List α) (ys : List β), xs.mapM f = some ys → ys.length = xs.length := by
  intro xs
  induction xs with
  | nil =>
      intro ys h
      simp only [List.mapM_nil, pure, Option.some.injEq] at h
      simp [← h]
  | cons x xs ih =>
      intro ys h
      cases hfx : f x with
      | none => rw [List.mapM_cons, hfx] at h; simp at h
      | some y =>
          cases hrest : xs.mapM f with
          | none => rw [List.mapM_cons, hfx, hrest] at h; simp at h
          | some zs =>
              rw [List.mapM_cons, hfx, hrest] at h
              simp only [Option.bind_eq_bind, Option.some_bind, pure,
                Option.some.injEq] at h
              rw [← h]
              simp [ih zs hrest]

/-- Auxiliary: running `mapM id` over a list of `some`s strips them. -/
theorem mapM_id_map_some {α : Type} (xs : List α) :
    ((xs.map some).mapM id : Option (List α)) = some xs := by
  induction xs with
  | nil => rfl
  | cons x rest ih =>
      rw [List.map_cons, List.mapM_cons, ih]
      rfl

/-- C5 counterexample: the empty-array body reaches `ParseRequest`, which
reports the internal invalid-request error, but `handleRPC` re-codes every
parse-stage error to -32700 (`sendJSONRPCError(w, nil, -32700,
err.Error())`), so the POST path answers the empty batch with -32700 — not
the -32600 the claim states — with the original error text only embedded in
the message. -/
theorem handleRPC_claim_counterexample :
    handleRPC (fun _ => none) none (Json.arr []) ("ip") =
      some (Sum.inl ⟨"2.0", Json.null, none, some ⟨-32700,
        "rpc error: code=-32600, message=empty batch request"⟩⟩) ∧
    handleRPC (fun _ => none) none (Json.arr [Json.num 1]) ("ip") =
      some (Sum.inl ⟨"2.0", Json.null, none, some ⟨-32700,
        "rpc error: code=-32700, message=failed to parse request"⟩⟩) :=
  ⟨rfl, rfl⟩

/-- C5 amended: `ParseRequest` rejects the empty array with the internal
invalid-request error (-32600 "empty batch request"), but `handleRPC`
answers every parse-stage error — the empty batch included — with code
-32700, a null id, and the original error only quoted inside the message;
a non-empty JSON array whose entries all unmarshal as request objects is
dispatched as a batch of the same length, front to back, one response per
entry in input order. -/
theorem handleRPC_batch_characterization
    (methods : String → Option (Json → Except RPCErr Json))
    (rl : Option RateLimiter) (ip : String) :
    (ParseRequest (Json.arr []) =
      Except.error ⟨-32600, "empty batch request"⟩) ∧
    (handleRPC methods rl (Json.arr []) ip =
      some (Sum.inl ⟨"2.0", Json.null, none, some ⟨-32700,
        "rpc error: code=-32600, message=empty batch request"⟩⟩)) ∧
    (∀ xs reqs, xs ≠ [] → decodeBatch (Json.arr xs) = some (reqs.map some) →
      handleRPC methods rl (Json.arr xs) ip =
        some (Sum.inr (handleBatch methods rl reqs ip).1) ∧
      reqs.length = xs.length) ∧
    (∀ reqs, (handleBatch methods rl reqs ip).1.length = reqs.length) ∧
    (∀ r rest,
      (handleBatch methods rl (r :: rest) ip).1 =
        (handleRequest methods rl r ip).1 ::
          (handleBatch methods (handleRequest methods rl r ip).2 rest ip).1) := by
  refine ⟨rfl, rfl, ?_, ?_, ?_⟩
  · intro xs reqs hne hdec
    have hlen : (reqs.map some).length = xs.length :=
      mapM_option_length decodeBatchElem xs (reqs.map some)
        (by simpa [decodeBatch] using hdec)
    rw [List.length_map] at hlen
    have hbne : reqs ≠ [] := by
      intro hb
      subst hb
      exact hne (List.length_eq_zero.mp hlen.symm)
    refine ⟨?_, hlen⟩
    have hparse : ParseRequest (Json.arr xs) =
        Except.ok (Sum.inr (reqs.map some)) := by
      obtain ⟨b, bs, hcons⟩ : ∃ b bs, reqs.map some = b :: bs := by
        cases reqs with
        | nil => exact absurd rfl hbne
        | cons b bs => exact ⟨some b, bs.map some, rfl⟩
      simp only [ParseRequest, decodeRequest]
      rw [hdec, hcons]
    simp only [handleRPC, hparse, mapM_id_map_some]
    rfl
  · intro reqs
    induction reqs generalizing rl with
    | nil => rfl
    | cons r rest ih => simp [handleBatch, ih]
  · intro r rest
    rfl

/-- C5 amended witness: a one-element batch of an empty request object is
dispatched, producing the single in-order response (-32600 for its empty
version string). -/
theorem handleRPC_batch_characterization_witness :
    handleRPC (fun _ => none) none (Json.arr [Json.obj []]) ("ip") =
      some (Sum.inr [⟨"2.0", Json.null, none,
        some ⟨-32600, "invalid jsonrpc version"⟩⟩]) := by
  have h := ((handleRPC_batch_characterization (fun _ => none) none
      ("ip")).2.2.1 [Json.obj []] [⟨"", Json.null, "", Json.null⟩]
      (by simp) rfl).1
  exact h

/-- Auxiliary: the per-peer stage denies with tag `ip` when the peer's
bucket (created with `ipBurst` tokens on first sight) has no token, and it
never touches any other key of the bucket map. -/
theorem rlAllowIp_deny (rl : RateLimiter) (ip method : String)
    (hipr : 0 < rl.ipRate)
    (h0 : ((mapLookup rl.buckets ip).getD ⟨rl.ipBurst⟩).tokens = 0) :
    (rlAllowIp rl ip method).1 = (false, "ip") ∧
    ∀ k, k ≠ ip →
      mapLookup (rlAllowIp rl ip method).2.buckets k =
        mapLookup rl.buckets k := by
  unfold rlAllowIp
  rw [if_neg (by omega : ¬ rl.ipRate ≤ 0)]
  cases hlk : mapLookup rl.buckets ip with
  | some b =>
      rw [hlk] at h0
      simp only [Option.getD_some] at h0
      simp only [hlk, Option.getD_some, bucketAllow, h0, if_pos]
      refine ⟨rfl, ?_⟩
      intro k hk
      exact mapLookup_mapInsert_other rl.buckets ip k b hk
  | none =>
      rw [hlk] at h0
      simp only [Option.getD_none] at h0
      simp only [hlk, mapLookup_mapInsert_self, Option.getD_some, bucketAllow,
        h0, if_pos, Bool.false_eq_true, if_false]
      refine ⟨trivial, ?_⟩
      intro k hk
      rw [mapLookup_mapInsert_other _ ip k _ hk,
        mapLookup_mapInsert_other _ ip k _ hk]

/-- Auxiliary: the per-method stage denies with tag `method` when the
method has a positive configured rate and its bucket (created with
`rate = burst` tokens on first sight) has no token. -/
theorem rlAllowMethod_deny (rl : RateLimiter) (method : String) (mrate : Int)
    (h1 : mapLookup rl.methodLimits method = some mrate) (h2 : 0 < mrate)
    (h3 : ((mapLookup rl.buckets ("method:" ++ method)).getD
      ⟨mrate.toNat⟩).tokens = 0) :
    (rlAllowMethod rl method).1 = (false, "method") := by
  unfold rlAllowMethod
  rw [h1]
  simp only [if_pos h2]
  cases hlk : mapLookup rl.buckets ("method:" ++ method) with
  | some b =>
      rw [hlk] at h3
      simp only [Option.getD_some] at h3
      simp only [hlk, Option.getD_some, bucketAllow, h3, if_pos,
        Bool.false_eq_true, if_false]
  | none =>
      rw [hlk] at h3
      simp only [Option.getD_none] at h3
      simp only [hlk, mapLookup_mapInsert_self, Option.getD_some, bucketAllow,
        h3, if_pos, Bool.false_eq_true, if_false]

/-- C7: the scopes are evaluated global, then peer, then method; the first
bucket to deny picks the tag; a global denial leaves the limiter state
untouched (so no later bucket loses a token) and a peer denial leaves every
other key of the bucket map — the method bucket included — untouched; the
dispatcher answers a denial with -32006 and the tag inside the message. -/
theorem rate_limit_first_denier (rl : RateLimiter) (ip method : String)
    (hen : rl.enabled = true) :
    (∀ g, rl.global = some g → g.tokens = 0 →
      rlAllow rl ip method = ((false, "global"), rl)) ∧
    ((rl.global = none ∨ ∃ g, rl.global = some g ∧ 0 < g.tokens) →
      0 < rl.ipRate →
      ((mapLookup rl.buckets ip).getD ⟨rl.ipBurst⟩).tokens = 0 →
      (rlAllow rl ip method).1 = (false, "ip") ∧
      ∀ k, k ≠ ip →
        mapLookup (rlAllow rl ip method).2.buckets k =
          mapLookup rl.buckets k) ∧
    ((rl.global = none ∨ ∃ g, rl.global = some g ∧ 0 < g.tokens) →
      rl.ipRate ≤ 0 →
      ∀ mrate, mapLookup rl.methodLimits method = some mrate → 0 < mrate →
      ((mapLookup rl.buckets ("method:" ++ method)).getD
        ⟨mrate.toNat⟩).tokens = 0 →
      (rlAllow rl ip method).1 = (false, "method")) ∧
    (∀ (methods : String → Option (Json → Except RPCErr Json))
      (req : Request),
      req.jsonrpc = "2.0" → (rlAllow rl ip req.method).1.1 = false →
      (handleRequest methods (some rl) req ip).1.error =
        some ⟨-32006,
          "rate limit exceeded: " ++ (rlAllow rl ip req.method).1.2⟩ ∧
      ∃ s, "rate limit exceeded: " ++ (rlAllow rl ip req.method).1.2 =
        s ++ (rlAllow rl ip req.method).1.2) := by
  have hnotfalse : ¬ rl.enabled = false := by rw [hen]; simp
  refine ⟨?_, ?_, ?_, ?_⟩
  · intro g hg hz
    unfold rlAllow
    rw [if_neg hnotfalse]
    simp only [hg, bucketAllow, hz, if_pos, Bool.false_eq_true, if_false]
    have : { rl with global := some g } = rl := by
      cases rl
      simp only at hg
      simp [hg]
    rw [this]
  · intro hglob hipr h0
    unfold rlAllow
    rw [if_neg hnotfalse]
    rcases hglob with hg | ⟨g, hg, hgt⟩
    · simp only [hg]
      exact rlAllowIp_deny rl ip method hipr h0
    · simp only [hg, bucketAllow, if_neg (by omega : ¬ g.tokens = 0)]
      exact rlAllowIp_deny { rl with global := some ⟨g.tokens - 1⟩ }
        ip method hipr h0
  · intro hglob hipr mrate h1 h2 h3
    unfold rlAllow rlAllowIp
    rw [if_neg hnotfalse]
    rcases hglob with hg | ⟨g, hg, hgt⟩
    · simp only [hg]
      rw [if_pos hipr]
      exact rlAllowMethod_deny rl method mrate h1 h2 h3
    · simp only [hg, bucketAllow, if_neg (by omega : ¬ g.tokens = 0)]
      rw [if_pos hipr]
      exact rlAllowMethod_deny { rl with global := some ⟨g.tokens - 1⟩ }
        method mrate h1 h2 h3
  · intro methods req hv hdeny
    have hcond : ¬ (req.jsonrpc ≠ "2.0") := by simp [hv]
    refine ⟨?_, "rate limit exceeded: ", rfl⟩
    simp only [handleRequest, if_neg hcond, hdeny, Bool.false_eq_true,
      if_false]

/-- C7 witness: an enabled limiter whose global bucket is empty denies with
the `global` tag, changes no state, and the dispatcher answers -32006 with
the tag in the message. -/
theorem rate_limit_first_denier_witness :
    rlAllow ⟨true, some ⟨0⟩, 0, 0, [], []⟩ ("1.2.3.4") ("eth_call") =
      ((false, "global"), ⟨true, some ⟨0⟩, 0, 0, [], []⟩) ∧
    (handleRequest (fun _ => none) (some ⟨true, some ⟨0⟩, 0, 0, [], []⟩)
        ⟨"2.0", Json.null, "eth_call", Json.null⟩ ("1.2.3.4")).1.error =
      some ⟨-32006, "rate limit exceeded: global"⟩ := by
  have h := rate_limit_first_denier ⟨true, some ⟨0⟩, 0, 0, [], []⟩
    ("1.2.3.4") ("eth_call") rfl
  have h1 := h.1 ⟨0⟩ rfl rfl
  refine ⟨h1, ?_⟩
  have hd : (rlAllow ⟨true, some ⟨0⟩, 0, 0, [], []⟩ ("1.2.3.4")
      ("eth_call")).1.1 = false := by rw [h1]
  have h4 := (h.2.2.2 (fun _ => none)
    ⟨"2.0", Json.null, "eth_call", Json.null⟩ rfl hd).1
  rw [h4, h1]
  decide

/-- C1 counterexample: a transaction with gas limit 100 (below the 21000
floor) whose nonce is also below the account nonce is rejected with -32004
"nonce too low", not the -32001 the claim assigns to every low gas limit —
the gas-floor check runs after the nonce check in the source. -/
theorem sendRawTransaction_claim_counterexample :
    sendRawTransaction 1 (some ⟨0, 100, some 0, none, 0, some 1, 42⟩)
      (fun _ => some 9) (fun _ => Except.ok 5) (fun _ => Except.ok 0) [] =
      Except.error ⟨-32004, "nonce too low: got 0, expected >= 5"⟩ := by
  decide

/-- C1 amended: the admission checks run in the source order — decode,
signature, chain id (each -32001), then nonce (-32004 "nonce too low"),
then balance against `value + gasLimit × effectiveGasPrice` (-32004
"insufficient funds"), then the 21000 gas floor (-32001) — so a transaction
failing an earlier check gets that earlier error even when the gas floor is
also violated; when every check passes the transaction is appended to the
pool and its hash returned. -/
theorem sendRawTransaction_check_order (chainID : Nat) (tx : GoTx)
    (sender : Nat) (recoverSender : GoTx → Option Nat)
    (getNonce : Nat → Except String Nat) (getBalance : Nat → Except String Int)
    (pool : List GoTx) (currentNonce : Nat) (balance : Int)
    (hrec : recoverSender tx = some sender)
    (hchain : tx.chainId = none ∨ tx.chainId = some chainID)
    (hn : getNonce sender = Except.ok currentNonce)
    (hb : getBalance sender = Except.ok balance) :
    (sendRawTransaction chainID none recoverSender getNonce getBalance pool =
      Except.error ⟨-32001, "invalid transaction"⟩) ∧
    (∀ tx2 : GoTx, recoverSender tx2 = none →
      sendRawTransaction chainID (some tx2) recoverSender getNonce getBalance
        pool = Except.error ⟨-32001, "invalid signature"⟩) ∧
    (∀ tx2 : GoTx, ∀ cid : Nat, tx2.chainId = some cid → cid ≠ chainID →
      ∀ s2, recoverSender tx2 = some s2 →
      sendRawTransaction chainID (some tx2) recoverSender getNonce getBalance
        pool = Except.error ⟨-32001, "invalid chain id: got " ++
          toString cid ++ ", expected " ++ toString chainID⟩) ∧
    (tx.nonce < currentNonce →
      sendRawTransaction chainID (some tx) recoverSender getNonce getBalance
        pool = Except.error ⟨-32004, "nonce too low: got " ++
          toString tx.nonce ++ ", expected >= " ++ toString currentNonce⟩) ∧
    (currentNonce ≤ tx.nonce →
      balance < tx.value + effGasPrice tx * int64OfUint64 tx.gas →
      sendRawTransaction chainID (some tx) recoverSender getNonce getBalance
        pool = Except.error ⟨-32004, "insufficient funds: balance=" ++
          toString balance ++ ", required=" ++
          toString (tx.value + effGasPrice tx * int64OfUint64 tx.gas)⟩) ∧
    (currentNonce ≤ tx.nonce →
      tx.value + effGasPrice tx * int64OfUint64 tx.gas ≤ balance →
      tx.gas < 21000 →
      sendRawTransaction chainID (some tx) recoverSender getNonce getBalance
        pool = Except.error ⟨-32001, "gas limit too low: got " ++
          toString tx.gas ++ ", minimum 21000"⟩) ∧
    (currentNonce ≤ tx.nonce →
      tx.value + effGasPrice tx * int64OfUint64 tx.gas ≤ balance →
      21000 ≤ tx.gas →
      sendRawTransaction chainID (some tx) recoverSender getNonce getBalance
        pool = Except.ok (pool ++ [tx], tx.hash)) := by
  have hcfalse : (match tx.chainId with
      | some cid => cid != chainID
      | none => false : Bool) = false := by
    rcases hchain with h | h <;> simp [h]
  refine ⟨rfl, ?_, ?_, ?_, ?_, ?_, ?_⟩
  · intro tx2 h
    simp only [sendRawTransaction, h]
  · intro tx2 cid hcid hne s2 hs2
    have hct : (match tx2.chainId with
        | some cid => cid != chainID
        | none => false : Bool) = true := by
      simp [hcid, hne]
    simp only [sendRawTransaction, hs2, hct, if_true, hcid]
    rw [if_pos (show (cid != chainID) = true by simp [hne])]
  · intro hlt
    simp only [sendRawTransaction, hrec, hcfalse, Bool.false_eq_true,
      if_false, hn]
    rw [if_pos hlt]
  · intro hge hlt
    simp only [sendRawTransaction, hrec, hcfalse, Bool.false_eq_true,
      if_false, hn, hb]
    rw [if_neg (Nat.not_lt.mpr hge), if_pos hlt]
  · intro hge hble hgas
    simp only [sendRawTransaction, hrec, hcfalse, Bool.false_eq_true,
      if_false, hn, hb]
    rw [if_neg (Nat.not_lt.mpr hge), if_neg (by omega : ¬ balance <
      tx.value + effGasPrice tx * int64OfUint64 tx.gas), if_pos hgas]
  · intro hge hble hgas
    simp only [sendRawTransaction, hrec, hcfalse, Bool.false_eq_true,
      if_false, hn, hb]
    rw [if_neg (Nat.not_lt.mpr hge), if_neg (by omega : ¬ balance <
      tx.value + effGasPrice tx * int64OfUint64 tx.gas),
      if_neg (Nat.not_lt.mpr hgas)]

/-- C1 amended witness: a fully valid transaction (gas 21000, fresh nonce,
funded account) is appended to the empty pool and its hash returned. -/
theorem sendRawTransaction_check_order_witness :
    sendRawTransaction 1 (some ⟨0, 21000, some 1, none, 0, some 1, 99⟩)
      (fun _ => some 3) (fun _ => Except.ok 0)
      (fun _ => Except.ok 1000000000) [] =
      Except.ok ([⟨0, 21000, some 1, none, 0, some 1, 99⟩], 99) := by
  have h := (sendRawTransaction_check_order 1
      ⟨0, 21000, some 1, none, 0, some 1, 99⟩ 3 (fun _ => some 3)
      (fun _ => Except.ok 0) (fun _ => Except.ok 1000000000) [] 0 1000000000
      rfl (Or.inr rfl) rfl rfl).2.2.2.2.2.2
  exact h (by decide) (by decide) (by decide)

/-- C6 amended witness: the mixed-case literal `Latest` parses to the
latest tag and resolves through `idx:latest`. -/
theorem parseBlockNumber_characterization_witness :
    ParseBlockNumber ("Latest") = Except.ok (-1) ∧
    blockApiResolveBlockNumber
      (fun k => if k = "idx:latest" then some ("7") else none) (-1) =
      Except.ok 7 := by
  have h := (parseBlockNumber_characterization ("Latest")
      (fun k => if k = "idx:latest" then some ("7") else none)
      (fun _ => none) ("a") ("k")).2.2.1 (by decide)
  refine ⟨h.1, ?_⟩
  rw [h.2]
  decide
